import Mathlib

/-!
CoAP echo server and button client.

A shallow embedding of `server/coapserver.c` (libcoap echo server) and of
`src/main.c` (Zephyr button client).

Conventions of the embedding:

* a byte (`uint8_t`, `char`) is a natural number; a byte buffer is a list;
* `size_t` arithmetic is arithmetic on `Nat` reduced modulo `2 ^ 64` (the
  server is built for a 64-bit host);
* a stack buffer is a list of cells, a cell being `none` while it is
  indeterminate and `some b` once the byte `b` has been stored in it;
* a `memcpy` that leaves the bounds of its source or destination object is a
  fault, and so is a read of an indeterminate cell;
* console and log output of the server handlers (`printf`) is not part of
  the model; the client's log lines that carry data are kept as events;
* the handlers' unused arguments `resource` and `session` are left out.
-/

namespace Coap

/-! C primitives -/

/-- The bytes of a C string literal, without the terminating NUL. -/
def c_bytes (s : String) : List Nat :=
  s.toUTF8.data.toList.map UInt8.toNat

/-- The char array a C string literal denotes: its bytes and a NUL. -/
def c_str (s : String) : List Nat :=
  c_bytes s ++ [0]

/-- The C library's `strlen`: number of bytes before the first NUL. -/
def strlen (s : List Nat) : Nat :=
  (s.takeWhile (fun b => b != 0)).length

/-- Number of values of `size_t`. -/
def SIZE_MOD : Nat := 2 ^ 64

/-- Addition in `size_t`. -/
def size_add (a b : Nat) : Nat :=
  (a + b) % SIZE_MOD

/-- Subtraction in `size_t` (wraps around below zero). -/
def size_sub (a b : Nat) : Nat :=
  (a % SIZE_MOD + SIZE_MOD - b % SIZE_MOD) % SIZE_MOD

/-- Ways a run of a handler can go wrong. -/
inductive Fault where
  | out_of_bounds
  | indeterminate_read
  deriving DecidableEq, Repr

/-- A stack buffer: `none` marks a cell that has not been written yet. -/
abbrev Buffer := List (Option Nat)

/-- An array with automatic storage and no initialiser, of `n` bytes. -/
def uninit (n : Nat) : Buffer :=
  List.replicate n none

/-- The call `memcpy(dst + off, src, n)`: stores the first `n` bytes of `src`
at offset `off` of `dst`; a fault when `n` bytes do not fit in `dst` after
`off` or are not available in `src`. -/
def memcpy (dst : Buffer) (off : Nat) (src : List Nat) (n : Nat) : Except Fault Buffer :=
  if off + n ≤ dst.length ∧ n ≤ src.length then
    .ok (dst.take off ++ (src.take n).map some ++ dst.drop (off + n))
  else
    .error Fault.out_of_bounds

/-- The bytes stored in a run of cells, if every one of them is determinate. -/
def read_cells : Buffer → Option (List Nat)
  | [] => some []
  | none :: _ => none
  | some b :: rest => (read_cells rest).map (fun bs => b :: bs)

/-- Reads the first `n` bytes of a buffer; a fault when the buffer is shorter
or one of the cells is indeterminate. -/
def read_bytes (buf : Buffer) (n : Nat) : Except Fault (List Nat) :=
  if n ≤ buf.length then
    match read_cells (buf.take n) with
    | some bs => .ok bs
    | none => .error Fault.indeterminate_read
  else
    .error Fault.out_of_bounds

/-! libcoap PDUs -/

/-- Request methods of libcoap (`coap_request_t`). -/
inductive coap_request_t where
  | COAP_REQUEST_GET
  | COAP_REQUEST_POST
  | COAP_REQUEST_PUT
  | COAP_REQUEST_DELETE
  | COAP_REQUEST_FETCH
  | COAP_REQUEST_PATCH
  | COAP_REQUEST_IPATCH
  deriving DecidableEq, Repr

/-- A libcoap PDU as far as the handlers can observe it: message type, code,
message id, token, options and the optional payload. -/
structure coap_pdu_t where
  type : Nat
  code : Nat
  mid : Nat
  token : List Nat
  options : List (Nat × List Nat)
  data : Option (List Nat)
  deriving DecidableEq, Repr

/-- Modelled from the spec: the libcoap header that defines the response
codes is not part of the sources. A response code is class.detail with the
class in the top three bits and the detail in the low five bits; this is
2.05 Content. -/
def COAP_RESPONSE_CODE_CONTENT : Nat := 2 * 32 + 5

/-- Modelled from the spec: the code 4.04 Not Found, class 4 and detail 4. -/
def COAP_RESPONSE_CODE_NOT_FOUND : Nat := 4 * 32 + 4

/-- Modelled from the spec: libcoap's `coap_pdu_set_code` is not part of the
sources; it overwrites the code of the PDU. -/
def coap_pdu_set_code (pdu : coap_pdu_t) (code : Nat) : coap_pdu_t :=
  { pdu with code := code }

/-- Modelled from the spec: libcoap's `coap_get_data` is not part of the
sources; it reports whether the PDU carries a payload, and the payload's
length and bytes (length 0 and no bytes when there is none). -/
def coap_get_data (pdu : coap_pdu_t) : Bool × Nat × List Nat :=
  match pdu.data with
  | some d => (true, d.length, d)
  | none => (false, 0, [])

/-- Modelled from the spec: libcoap's `coap_add_data` is not part of the
sources; it sets the payload of the PDU to the first `len` bytes found at
`data`. -/
def coap_add_data (pdu : coap_pdu_t) (len : Nat) (data : Buffer) : Except Fault coap_pdu_t :=
  match read_bytes data len with
  | .ok bs => .ok { pdu with data := some bs }
  | .error e => .error e

/-! The handlers of `coapserver.c` -/

/-- The literal `" zurück"` of `hnd_echo`. -/
def suffix : List Nat := c_str " zurück"

/-- The value of `out_len` in `hnd_echo` once it has been clamped to
`sizeof(out)`. -/
def hnd_echo_out_len (size suffix_len : Nat) : Nat :=
  let out_len := size_add size suffix_len
  if out_len > 512 then 512 else out_len

/-- The value of `max_suffix` in `hnd_echo`. -/
def hnd_echo_max_suffix (size suffix_len : Nat) : Nat :=
  size_sub (hnd_echo_out_len size suffix_len) size

/-- The echo handler `hnd_echo`: runs on the request and the response
template, and gives the response it leaves behind, or the fault it runs
into. -/
def hnd_echo (request : coap_pdu_t) (_query : Option (List Nat)) (response : coap_pdu_t) :
    Except Fault coap_pdu_t :=
  let response := coap_pdu_set_code response COAP_RESPONSE_CODE_CONTENT
  let (have_data, size, data) := coap_get_data request
  if have_data && decide (size > 0) then
    let suffix_len := strlen suffix
    let out : Buffer := uninit 512
    let out_len := hnd_echo_out_len size suffix_len
    match memcpy out 0 data size with
    | .error e => .error e
    | .ok out =>
      let max_suffix := hnd_echo_max_suffix size suffix_len
      match memcpy out size suffix max_suffix with
      | .error e => .error e
      | .ok out => coap_add_data response out_len out
  else
    let msg := c_str "no payload"
    coap_add_data response (strlen msg) (msg.map some)

/-- The root handler `hnd_root`. -/
def hnd_root (_request : coap_pdu_t) (_query : Option (List Nat)) (response : coap_pdu_t) :
    Except Fault coap_pdu_t :=
  let msg := c_str "Rumpelstilzchen"
  let response := coap_pdu_set_code response COAP_RESPONSE_CODE_CONTENT
  coap_add_data response (strlen msg) (msg.map some)


/-! The resource table of `coapserver.c` -/

/-- The handler functions of `coapserver.c`, as values that can be
registered (the function pointers passed to `coap_register_handler`). -/
inductive Handler where
  | hnd_echo
  | hnd_root
  deriving DecidableEq, Repr

/-- The function a registered handler stands for. -/
def Handler.run : Handler → coap_pdu_t → Option (List Nat) → coap_pdu_t → Except Fault coap_pdu_t
  | .hnd_echo => Coap.hnd_echo
  | .hnd_root => Coap.hnd_root

/-- A resource: its URI path and the handler registered for each method. -/
structure coap_resource_t where
  uri_path : String
  handler : coap_request_t → Option Handler

/-- The part of a libcoap context the server uses: its resources. -/
structure coap_context_t where
  resources : List coap_resource_t

/-- Modelled from the spec: libcoap's `coap_new_context` is not part of the
sources; a new context has no resource. -/
def coap_new_context : coap_context_t :=
  { resources := [] }

/-- Modelled from the spec: libcoap's `coap_resource_init` is not part of the
sources; a new resource has the given path and no handler. -/
def coap_resource_init (uri_path : String) (_flags : Nat) : coap_resource_t :=
  { uri_path := uri_path, handler := fun _ => none }

/-- Modelled from the spec: libcoap's `coap_register_handler` is not part of
the sources; it replaces the handler of exactly that method, the last
registration wins. -/
def coap_register_handler (res : coap_resource_t) (method : coap_request_t) (h : Handler) :
    coap_resource_t :=
  { res with handler := fun m => if m = method then some h else res.handler m }

/-- Modelled from the spec: libcoap's `coap_add_resource` is not part of the
sources; it puts the resource in the context, in place of a resource of the
same path. -/
def coap_add_resource (ctx : coap_context_t) (res : coap_resource_t) : coap_context_t :=
  { resources := res :: ctx.resources.filter (fun r => r.uri_path != res.uri_path) }

/-- The context as `main` of `coapserver.c` has built it when it enters its
loop. -/
def main_context : coap_context_t :=
  let ctx := coap_new_context
  let res := coap_resource_init "echo" 0
  let res := coap_register_handler res .COAP_REQUEST_GET .hnd_echo
  let res := coap_register_handler res .COAP_REQUEST_PUT .hnd_echo
  let res := coap_register_handler res .COAP_REQUEST_POST .hnd_echo
  let ctx := coap_add_resource ctx res
  let res_hello := coap_resource_init "" 0
  let res_hello := coap_register_handler res_hello .COAP_REQUEST_GET .hnd_root
  let ctx := coap_add_resource ctx res_hello
  ctx

/-- Modelled from the spec: the registry's lookup is part of libcoap and not
of the sources; a path resolves to the resource of exactly that path. -/
def resolve_resource (ctx : coap_context_t) (path : String) : Option coap_resource_t :=
  ctx.resources.find? (fun r => r.uri_path == path)

/-- Modelled from the spec: the handler a (path, method) pair resolves to. -/
def resolve (ctx : coap_context_t) (path : String) (method : coap_request_t) : Option Handler :=
  match resolve_resource ctx path with
  | some res => res.handler method
  | none => none

/-- What the server engine does with one decoded request. -/
inductive Dispatch where
  | not_found
  | no_handler
  | invoked (h : Handler) (result : Except Fault coap_pdu_t)

/-- Modelled from the spec: the dispatch of a decoded request is part of
libcoap (`coap_io_process`) and not of the sources; a path without resource
is a lookup miss reported as Not Found, a resource without handler for the
method is a miss too, and otherwise the registered handler is invoked on the
request and the response template. -/
def dispatch (ctx : coap_context_t) (path : String) (method : coap_request_t)
    (request : coap_pdu_t) (query : Option (List Nat)) (response : coap_pdu_t) : Dispatch :=
  match resolve_resource ctx path with
  | none => .not_found
  | some res =>
    match res.handler method with
    | none => .no_handler
    | some h => .invoked h (h.run request query response)

/-! The Zephyr CoAP packet functions used by `main.c` -/

/-- The buffer size `COAP_BUF_SIZE` of `main.c`. -/
def COAP_BUF_SIZE : Nat := 256

/-- The token length `CONFIG_COAP_TOKEN_LEN` of `main.c`. -/
def CONFIG_COAP_TOKEN_LEN : Nat := 1

/-- Modelled from the spec: the Zephyr header that defines the message types
is not part of the sources; type 0 is Confirmable. -/
def COAP_TYPE_CON : Nat := 0

/-- Modelled from the spec: request method 1 is GET. -/
def COAP_METHOD_GET : Nat := 1

/-- Modelled from the spec: request method 3 is PUT. -/
def COAP_METHOD_PUT : Nat := 3

/-- Modelled from the spec: the number of the Uri-Path option, which the
Zephyr header defines as 11. -/
def COAP_OPTION_URI_PATH : Nat := 11

/-- Modelled from the spec: the button masks come from the board library and
are not part of the sources; button 1 is bit 0 and button 2 is bit 1. -/
def DK_BTN1_MSK : Nat := 1

/-- Modelled from the spec: the mask of button 2, bit 1. -/
def DK_BTN2_MSK : Nat := 2

/-- Zephyr's `struct coap_packet`: the bytes of the message buffer that are
in use, the write offset, the capacity, and the lengths of the header and of
the options with the number of the last option. -/
structure coap_packet where
  data : List Nat
  offset : Nat
  max_len : Nat
  hdr_len : Nat
  opt_len : Nat
  delta : Nat
  deriving DecidableEq, Repr

/-- Modelled from the spec: appends bytes at the write offset of a packet;
bytes that do not fit in the buffer are not written at all. -/
def append (cpkt : coap_packet) (bytes : List Nat) : coap_packet :=
  if cpkt.max_len - cpkt.offset < bytes.length then cpkt
  else { cpkt with data := cpkt.data ++ bytes, offset := cpkt.offset + bytes.length }

/-- Modelled from the spec: Zephyr's `coap_packet_init` is not part of the
sources; it writes the 4-byte header (version and type in the top bits and
the token length in the low four bits of the first byte, then the code, then
the message id big-endian) followed by the token bytes. The client does not
look at the returned status, so only the packet is modelled. -/
def coap_packet_init (max_len ver type token_len : Nat) (token : List Nat) (code id : Nat) :
    coap_packet :=
  let cpkt : coap_packet :=
    { data := [], offset := 0, max_len := max_len, hdr_len := 0, opt_len := 0, delta := 0 }
  let hdr := (ver % 4) * 64 + (type % 4) * 16 + token_len % 16
  let cpkt := append cpkt [hdr]
  let cpkt := append cpkt [code % 256]
  let cpkt := append cpkt [(id / 256) % 256, id % 256]
  let cpkt := append cpkt (token.take token_len)
  { cpkt with hdr_len := 1 + 1 + 2 + token_len }

/-- Modelled from the spec: the nibble and the extension bytes that encode an
option delta or length, with the escapes 13 (one more byte) and 14 (two more
bytes) for values from 13 on. -/
def encode_ext (n : Nat) : Nat × List Nat :=
  if n < 13 then (n, [])
  else if n < 269 then (13, [n - 13])
  else (14, [((n - 269) / 256) % 256, (n - 269) % 256])

/-- Modelled from the spec: Zephyr's `coap_packet_append_option` is not part
of the sources; it writes the option as delta from the previous option
number, length and value. An option below the previous number is refused. -/
def coap_packet_append_option (cpkt : coap_packet) (code : Nat) (value : List Nat) (len : Nat) :
    coap_packet :=
  if code < cpkt.delta then cpkt
  else
    let d := if cpkt.opt_len ≠ 0 then code - cpkt.delta else code
    let (dn, dext) := encode_ext d
    let (ln, lext) := encode_ext len
    let bytes := [dn * 16 + ln] ++ dext ++ lext ++ value.take len
    if cpkt.max_len - cpkt.offset < bytes.length then cpkt
    else
      let cpkt := append cpkt bytes
      { cpkt with opt_len := cpkt.opt_len + bytes.length, delta := code }

/-- Modelled from the spec: Zephyr's `coap_packet_append_payload_marker` is
not part of the sources; it writes the marker byte 0xFF. -/
def coap_packet_append_payload_marker (cpkt : coap_packet) : coap_packet :=
  append cpkt [0xFF]

/-- Modelled from the spec: Zephyr's `coap_packet_append_payload` is not part
of the sources; it writes the payload bytes. -/
def coap_packet_append_payload (cpkt : coap_packet) (payload : List Nat) (len : Nat) : coap_packet :=
  append cpkt (payload.take len)

/-- Modelled from the spec: reads an option delta or length from its nibble
and the bytes that follow: the value, the remaining bytes and the number of
extension bytes read. Nibble 15 is not a value. -/
def decode_ext (nibble : Nat) (bytes : List Nat) : Option (Nat × List Nat × Nat) :=
  if nibble < 13 then some (nibble, bytes, 0)
  else if nibble = 13 then
    match bytes with
    | b :: rest => some (b + 13, rest, 1)
    | [] => none
  else if nibble = 14 then
    match bytes with
    | b1 :: b2 :: rest => some (b1 * 256 + b2 + 269, rest, 2)
    | _ => none
  else none

/-- Modelled from the spec: walks the options that follow header and token,
accumulating the option numbers from the deltas, up to the payload marker or
the end of the buffer: the options read and the number of bytes they take.
Fails when an option's declared length exceeds the remaining buffer, or when
a payload marker is not followed by any byte. Every option takes at least
one byte, so a fuel above the number of bytes is never exhausted. -/
def parse_options : Nat → List Nat → Nat → Option (List (Nat × List Nat) × Nat)
  | 0, _, _ => none
  | _ + 1, [], _ => some ([], 0)
  | fuel + 1, b :: rest, number =>
    if b = 0xFF then
      if rest = [] then none else some ([], 0)
    else
      match decode_ext (b / 16) rest with
      | none => none
      | some (d, rest1, n1) =>
        match decode_ext (b % 16) rest1 with
        | none => none
        | some (l, rest2, n2) =>
          if rest2.length < l then none
          else
            match parse_options fuel (rest2.drop l) (number + d) with
            | none => none
            | some (opts, n) => some ((number + d, rest2.take l) :: opts, 1 + n1 + n2 + l + n)

/-- Modelled from the spec: Zephyr's `coap_packet_parse` is not part of the
sources; it fails on a buffer shorter than the 4-byte header, on a token
length above 8 or beyond the buffer, and on malformed options. The client
passes no option table, so no option is interpreted. -/
def coap_packet_parse (data : List Nat) (len : Nat) : Option coap_packet :=
  let data := data.take len
  if len < 4 ∨ data.length < len then none
  else
    let tkl := data.headD 0 % 16
    if tkl > 8 then none
    else if 4 + tkl > len then none
    else
      match parse_options (len + 1) (data.drop (4 + tkl)) 0 with
      | none => none
      | some (opts, opt_len) =>
        some { data := data, offset := 4 + tkl + opt_len, max_len := len, hdr_len := 4 + tkl,
               opt_len := opt_len, delta := (opts.map Prod.fst).getLastD 0 }

/-- Modelled from the spec: the version, the top two bits of the first byte. -/
def coap_header_get_version (cpkt : coap_packet) : Nat :=
  (cpkt.data.headD 0 / 64) % 4

/-- Modelled from the spec: the type, bits 5 and 4 of the first byte. -/
def coap_header_get_type (cpkt : coap_packet) : Nat :=
  (cpkt.data.headD 0 / 16) % 4

/-- Modelled from the spec: the token, whose length is the low four bits of
the first byte, taken right after the message id. -/
def coap_header_get_token (cpkt : coap_packet) : List Nat :=
  (cpkt.data.drop 4).take (cpkt.data.headD 0 % 16)

/-- Modelled from the spec: the code, the second byte. -/
def coap_header_get_code (cpkt : coap_packet) : Nat :=
  cpkt.data.getD 1 0

/-- Modelled from the spec: Zephyr's `coap_header_get_id` is not part of the
sources; the message id is the big-endian value of bytes 3 and 4. -/
def coap_header_get_id (cpkt : coap_packet) : Nat :=
  cpkt.data.getD 2 0 * 256 + cpkt.data.getD 3 0

/-- Modelled from the spec: the options of a packet as (number, value) pairs
in wire order. -/
def coap_packet_options (cpkt : coap_packet) : List (Nat × List Nat) :=
  match parse_options (cpkt.opt_len + 1) ((cpkt.data.drop cpkt.hdr_len).take cpkt.opt_len) 0 with
  | some (opts, _) => opts
  | none => []

/-- Modelled from the spec: Zephyr's `coap_packet_get_payload` is not part of
the sources; the payload is what follows header, options and the marker
byte. Gives the pointer (`none` for NULL) and the length. -/
def coap_packet_get_payload (cpkt : coap_packet) : Option (List Nat) × Nat :=
  let payload_len := cpkt.max_len - cpkt.hdr_len - cpkt.opt_len
  let len := if payload_len > 1 then payload_len - 1 else 0
  if len = 0 then (none, len)
  else (some ((cpkt.data.drop (cpkt.hdr_len + cpkt.opt_len + 1)).take len), len)

/-- The message of the spec's data model. -/
structure Message where
  version : Nat
  type : Nat
  code : Nat
  message_id : Nat
  token : List Nat
  options : List (Nat × List Nat)
  payload : Option (List Nat)
  deriving DecidableEq, Repr

/-- The message a packet holds, read through the accessors. -/
def coap_packet.message (cpkt : coap_packet) : Message :=
  { version := coap_header_get_version cpkt
    type := coap_header_get_type cpkt
    code := coap_header_get_code cpkt
    message_id := coap_header_get_id cpkt
    token := coap_header_get_token cpkt
    options := coap_packet_options cpkt
    payload := (coap_packet_get_payload cpkt).1 }

/-! The client `main.c` -/

/-- The log lines of the client that carry data. -/
inductive LogEvent where
  | sending_get
  | tx_hexdump (bytes : List Nat)
  | sent_message_id (id : Nat)
  | put_payload (bytes : List Nat)
  | recv_failed
  | rx_full_message (bytes : List Nat)
  | parse_failed
  | payload (len : Nat) (bytes : List Nat)
  | no_payload
  deriving DecidableEq, Repr

/-- The state the client runs on: the message-id counter of the CoAP library,
the datagrams handed to the socket and the log. The client keeps no record of
the requests it has sent. -/
structure Client where
  message_id : Nat
  sent : List (List Nat)
  log : List LogEvent
  deriving DecidableEq, Repr

/-- Modelled from the spec: Zephyr's `coap_next_id` is not part of the
sources; a counter that increases by one and wraps at 16 bits. -/
def coap_next_id (c : Client) : Nat × Client :=
  (c.message_id % 65536, { c with message_id := (c.message_id + 1) % 65536 })

/-- The call `sendto(sock, buf, len, ...)`: hands the first `len` bytes of the
buffer to the socket. -/
def sendto (c : Client) (buf : List Nat) (len : Nat) : Client :=
  { c with sent := c.sent ++ [buf.take len] }

/-- Adds lines to the log. -/
def LOG (c : Client) (events : List LogEvent) : Client :=
  { c with log := c.log ++ events }

/-- The bytes `printf` writes for a `%.*s` conversion: at most `precision`
bytes of the argument, and none from its first NUL on. -/
def fmt_s (bytes : List Nat) (precision : Nat) : List Nat :=
  (bytes.take precision).takeWhile (fun b => b != 0)

/-- The log line `receive_coap_response` writes for a parsed reply: the
payload length and the payload as text (`%.*s`) when there is a non-empty
payload, and "No payload in response" otherwise. -/
def log_payload (reply : coap_packet) : LogEvent :=
  let (payload, payload_len) := coap_packet_get_payload reply
  match payload with
  | some bytes =>
    if payload_len > 0 then .payload payload_len (fmt_s bytes payload_len) else .no_payload
  | none => .no_payload

/-- The function `receive_coap_response`. The argument `rx` is what `recv`
delivers: `none` when it fails, and the datagram otherwise, of which the
first `COAP_BUF_SIZE` bytes reach the buffer. A `recv` that never returns is
outside the model. -/
def receive_coap_response (c : Client) (rx : Option (List Nat)) : Client :=
  match rx with
  | none => LOG c [.recv_failed]
  | some dgram =>
    let buf := dgram.take COAP_BUF_SIZE
    let ret := buf.length
    let c := LOG c [.rx_full_message (buf.take ret)]
    match coap_packet_parse buf ret with
    | none => LOG c [.parse_failed]
    | some reply => LOG c [log_payload reply]

/-- The packet `request` of `send_coap_get` as it stands when it is sent. -/
def get_request (token : List Nat) (id : Nat) : coap_packet :=
  coap_packet_init COAP_BUF_SIZE 1 COAP_TYPE_CON CONFIG_COAP_TOKEN_LEN token COAP_METHOD_GET id

/-- The function `send_coap_get`. The argument `token` is the array that
`coap_next_token` returns and `rx` is what `recv` delivers. -/
def send_coap_get (c : Client) (token : List Nat) (rx : Option (List Nat)) : Client :=
  let (id, c) := coap_next_id c
  let request := get_request token id
  let buf := request.data
  let len := request.offset
  let c := sendto c buf len
  let c := LOG c [.sending_get, .tx_hexdump (buf.take request.offset),
    .sent_message_id (coap_header_get_id request)]
  receive_coap_response c rx

/-- The packet `request` of `send_coap_put` as it stands when it is sent. -/
def put_request (token : List Nat) (id : Nat) (payload : List Nat) : coap_packet :=
  let request := coap_packet_init COAP_BUF_SIZE 1 COAP_TYPE_CON CONFIG_COAP_TOKEN_LEN token
    COAP_METHOD_PUT id
  let request := coap_packet_append_option request COAP_OPTION_URI_PATH (c_str "echo")
    (strlen (c_str "echo"))
  let request := coap_packet_append_payload_marker request
  coap_packet_append_payload request payload (strlen payload)

/-- The function `send_coap_put`. -/
def send_coap_put (c : Client) (token : List Nat) (rx : Option (List Nat)) : Client :=
  let payload := c_str "123"
  let (id, c) := coap_next_id c
  let request := put_request token id payload
  let buf := request.data
  let len := request.offset
  let c := sendto c buf len
  let c := LOG c [.tx_hexdump (buf.take request.offset),
    .sent_message_id (coap_header_get_id request),
    .put_payload (payload.take (strlen payload))]
  receive_coap_response c rx

/-- The function `button_handler`. Each of the two sends it may start gets
its own token and its own datagram from `recv`. -/
def button_handler (state changed : Nat) (c : Client)
    (token1 : List Nat) (rx1 : Option (List Nat))
    (token2 : List Nat) (rx2 : Option (List Nat)) : Client :=
  let c :=
    if changed &&& DK_BTN1_MSK ≠ 0 then
      if state &&& DK_BTN1_MSK ≠ 0 then send_coap_get c token1 rx1 else c
    else c
  let c :=
    if changed &&& DK_BTN2_MSK ≠ 0 then
      if state &&& DK_BTN2_MSK ≠ 0 then send_coap_put c token2 rx2 else c
    else c
  c

/-! Buffers -/

theorem strlen_suffix : strlen suffix = 8 := by decide

theorem suffix_length : suffix.length = 9 := by decide

theorem take_suffix (k : Nat) (h : k ≤ 8) : suffix.take k = (c_bytes " zurück").take k := by
  have h8 : (c_bytes " zurück").length = 8 := by decide
  unfold suffix c_str
  rw [List.take_append_of_le_length (by omega)]

theorem read_cells_init (l : List Nat) : read_cells (l.map some) = some l := by
  induction l with
  | nil => rfl
  | cons b t ih => simp [read_cells, ih]

theorem read_bytes_init (l : List Nat) (k : Nat) :
    read_bytes (l.map some ++ uninit k) l.length = .ok l := by
  unfold read_bytes
  have h1 : l.length ≤ (l.map some ++ uninit k).length := by simp
  have h2 : (List.map some l ++ uninit k).take l.length = l.map some := by
    have : l.length = (l.map some).length := by simp
    rw [this, List.take_left]
  rw [if_pos h1, h2, read_cells_init]

theorem memcpy_payload (cap : Nat) (p : List Nat) (h : p.length ≤ cap) :
    memcpy (uninit cap) 0 p p.length = .ok (p.map some ++ uninit (cap - p.length)) := by
  unfold memcpy
  have h1 : 0 + p.length ≤ (uninit cap).length ∧ p.length ≤ p.length := by
    simp [uninit]; exact h
  rw [if_pos h1]
  simp [uninit]

theorem memcpy_suffix (cap : Nat) (p s : List Nat) (m : Nat) (h : p.length + m ≤ cap)
    (hm : m ≤ s.length) :
    memcpy (p.map some ++ uninit (cap - p.length)) p.length s m
      = .ok ((p ++ s.take m).map some ++ uninit (cap - (p ++ s.take m).length)) := by
  unfold memcpy
  have h1 : p.length + m ≤ (p.map some ++ uninit (cap - p.length)).length ∧ m ≤ s.length := by
    refine ⟨?_, hm⟩
    simp [uninit]; omega
  rw [if_pos h1]
  have h2 : (List.map some p ++ uninit (cap - p.length)).take p.length = p.map some := by
    have : p.length = (p.map some).length := by simp
    rw [this, List.take_left]
  have h3 : (List.map some p ++ uninit (cap - p.length)).drop (p.length + m)
      = uninit (cap - (p ++ s.take m).length) := by
    have : p.length + m = (p.map some).length + m := by simp
    rw [this, List.drop_append]
    simp [uninit, List.length_take, Nat.min_eq_left hm]
    omega
  rw [h2, h3]
  simp

/-! The echo handler -/

theorem hnd_echo_sizes (n : Nat) (h : n ≤ 512) :
    hnd_echo_out_len n 8 = min (n + 8) 512 ∧
    hnd_echo_max_suffix n 8 = min (n + 8) 512 - n := by
  simp only [hnd_echo_out_len, hnd_echo_max_suffix, size_add, size_sub, SIZE_MOD]
  norm_num
  split_ifs <;> omega

/-- A non-empty payload that fits in the output buffer is answered with the
payload and as many suffix bytes as still fit. -/
theorem hnd_echo_nonempty (request response : coap_pdu_t) (query : Option (List Nat))
    (p : List Nat) (hd : request.data = some p) (h0 : 0 < p.length) (h : p.length ≤ 512) :
    hnd_echo request query response
      = .ok { response with
              code := COAP_RESPONSE_CODE_CONTENT
              data := some (p ++ suffix.take (min (p.length + 8) 512 - p.length)) } := by
  obtain ⟨ho, hm⟩ := hnd_echo_sizes p.length h
  have hm8 : min (p.length + 8) 512 - p.length ≤ suffix.length := by
    rw [suffix_length]; omega
  have hfit : p.length + (min (p.length + 8) 512 - p.length) ≤ 512 := by omega
  have hlen : (p ++ suffix.take (min (p.length + 8) 512 - p.length)).length
      = min (p.length + 8) 512 := by
    rw [List.length_append, List.length_take, Nat.min_eq_left hm8]; omega
  unfold hnd_echo coap_get_data
  rw [hd]
  simp only [strlen_suffix, ho, hm, h0, decide_True, Bool.and_self, if_true]
  rw [memcpy_payload 512 p h]
  simp only []
  rw [memcpy_suffix 512 p suffix _ hfit hm8]
  simp only [coap_add_data]
  have hr := read_bytes_init (p ++ suffix.take (min (p.length + 8) 512 - p.length))
    (512 - (p ++ suffix.take (min (p.length + 8) 512 - p.length)).length)
  rw [hlen] at hr
  rw [hlen, hr]
  rfl

/-- A payload longer than the output buffer makes the first `memcpy` write
past the end of `out`. -/
theorem hnd_echo_oversize (request response : coap_pdu_t) (query : Option (List Nat))
    (p : List Nat) (hd : request.data = some p) (h : 512 < p.length) :
    hnd_echo request query response = .error Fault.out_of_bounds := by
  have h0 : 0 < p.length := by omega
  have hb : ¬ (0 + p.length ≤ (uninit 512).length ∧ p.length ≤ p.length) := by
    unfold uninit
    rw [List.length_replicate]
    omega
  unfold hnd_echo coap_get_data
  rw [hd]
  simp only [h0, decide_True, Bool.and_self, if_true]
  unfold memcpy
  rw [if_neg hb]

/-- Without a payload to echo the handler answers with the literal
`"no payload"`. -/
theorem hnd_echo_empty (request response : coap_pdu_t) (query : Option (List Nat))
    (h : request.data = none ∨ request.data = some []) :
    hnd_echo request query response
      = .ok { response with
              code := COAP_RESPONSE_CODE_CONTENT
              data := some (c_bytes "no payload") } := by
  unfold hnd_echo coap_get_data
  rcases h with h | h <;> rw [h] <;> rfl

/-- Up to the size of the output buffer the response code is 2.05 Content. -/
theorem hnd_echo_code_within_cap (request response : coap_pdu_t) (query : Option (List Nat))
    (h : ∀ p, request.data = some p → p.length ≤ 512) :
    ∃ r, hnd_echo request query response = .ok r ∧ r.code = COAP_RESPONSE_CODE_CONTENT := by
  cases hd : request.data with
  | none => exact ⟨_, hnd_echo_empty request response query (Or.inl hd), rfl⟩
  | some p =>
    cases p with
    | nil => exact ⟨_, hnd_echo_empty request response query (Or.inr hd), rfl⟩
    | cons b t =>
      exact ⟨_, hnd_echo_nonempty request response query (b :: t) hd (by simp) (h _ hd), rfl⟩

/-- C1: for a non-empty request payload `p` of length `N` with `N + 8 ≤ 512`,
`hnd_echo` answers with the payload `p` followed by the 8 bytes of the suffix
`" zurück"`, of total length `N + 8`; the payload `"abc"` gives
`"abc zurück"` byte for byte. -/
theorem hnd_echo_appends_suffix (request response : coap_pdu_t) (query : Option (List Nat))
    (p : List Nat) (hd : request.data = some p) (h0 : p ≠ []) (h : p.length + 8 ≤ 512) :
    (c_bytes " zurück").length = 8 ∧
    hnd_echo request query response
      = .ok { response with
              code := COAP_RESPONSE_CODE_CONTENT
              data := some (p ++ c_bytes " zurück") } ∧
    (p ++ c_bytes " zurück").length = p.length + 8 ∧
    (p = c_bytes "abc" → p ++ c_bytes " zurück" = c_bytes "abc zurück") := by
  have h8 : (c_bytes " zurück").length = 8 := by decide
  have hpos : 0 < p.length := List.length_pos.mpr h0
  refine ⟨h8, ?_, ?_, ?_⟩
  · rw [hnd_echo_nonempty request response query p hd hpos (by omega)]
    have : min (p.length + 8) 512 - p.length = 8 := by omega
    rw [this, take_suffix 8 (le_refl 8), ← h8, List.take_length]
  · rw [List.length_append, h8]
  · intro hp
    rw [hp]
    decide

/-- Witness of C1: the request payload `"abc"` is answered with
`"abc zurück"`. -/
theorem hnd_echo_appends_suffix_witness :
    hnd_echo ⟨0, 3, 1, [7], [(11, c_bytes "echo")], some (c_bytes "abc")⟩ none
        ⟨2, 0, 1, [7], [], none⟩
      = .ok ⟨2, COAP_RESPONSE_CODE_CONTENT, 1, [7], [], some (c_bytes "abc zurück")⟩ := by
  have h := hnd_echo_appends_suffix ⟨0, 3, 1, [7], [(11, c_bytes "echo")], some (c_bytes "abc")⟩
    ⟨2, 0, 1, [7], [], none⟩ none (c_bytes "abc") rfl (by decide) (by decide)
  rw [h.2.1, h.2.2.2 rfl]

/-- C2: for a request payload `p` of length `N` with `504 < N ≤ 512`, the
response payload of `hnd_echo` has length exactly 512 and is `p` followed by
the first `512 - N` bytes of the suffix; for `N = 512` it is `p` unchanged,
and for `N = 509` it is `p` followed by the three bytes `" zu"`. -/
theorem hnd_echo_truncates_suffix (request response : coap_pdu_t) (query : Option (List Nat))
    (p : List Nat) (hd : request.data = some p) (h1 : 504 < p.length) (h2 : p.length ≤ 512) :
    hnd_echo request query response
      = .ok { response with
              code := COAP_RESPONSE_CODE_CONTENT
              data := some (p ++ (c_bytes " zurück").take (512 - p.length)) } ∧
    (p ++ (c_bytes " zurück").take (512 - p.length)).length = 512 ∧
    (p.length = 512 → p ++ (c_bytes " zurück").take (512 - p.length) = p) ∧
    (p.length = 509 → p ++ (c_bytes " zurück").take (512 - p.length) = p ++ c_bytes " zu") := by
  have h8 : (c_bytes " zurück").length = 8 := by decide
  refine ⟨?_, ?_, ?_, ?_⟩
  · rw [hnd_echo_nonempty request response query p hd (by omega) h2]
    have : min (p.length + 8) 512 - p.length = 512 - p.length := by omega
    rw [this, take_suffix (512 - p.length) (by omega)]
  · rw [List.length_append, List.length_take, h8]
    omega
  · intro hp
    rw [hp]
    exact List.append_nil p
  · intro hp
    rw [hp]
    rfl

/-- Witness of C2: a payload of 509 bytes is answered with the payload and
the three bytes `" zu"`. -/
theorem hnd_echo_truncates_suffix_witness :
    hnd_echo ⟨0, 3, 1, [7], [(11, c_bytes "echo")], some (List.replicate 509 65)⟩ none
        ⟨2, 0, 1, [7], [], none⟩
      = .ok ⟨2, COAP_RESPONSE_CODE_CONTENT, 1, [7], [],
          some (List.replicate 509 65 ++ c_bytes " zu")⟩ := by
  have hl : (List.replicate 509 65).length = 509 := List.length_replicate 509 65
  have h := hnd_echo_truncates_suffix
    ⟨0, 3, 1, [7], [(11, c_bytes "echo")], some (List.replicate 509 65)⟩
    ⟨2, 0, 1, [7], [], none⟩ none (List.replicate 509 65) rfl
    (by rw [hl]; decide) (by rw [hl]; decide)
  rw [h.1, h.2.2.2 hl]

/-- C3: at a payload of 513 bytes, one byte above the cap, `out_len` is
clamped to 512 and `max_suffix = out_len - size` wraps around in `size_t` to
`2 ^ 64 - 1` instead of being 0. -/
theorem hnd_echo_max_suffix_wraps :
    strlen suffix = 8 ∧
    hnd_echo_out_len 513 (strlen suffix) = 512 ∧
    hnd_echo_max_suffix 513 (strlen suffix) = 2 ^ 64 - 1 ∧
    hnd_echo_max_suffix 513 (strlen suffix) ≠ 0 := by
  decide

/-- C4: for a request without payload or with a payload of length zero
(`coap_get_data` fails or gives size 0), `hnd_echo` answers with exactly the
10 bytes of the literal `"no payload"` and no suffix. -/
theorem hnd_echo_no_payload (request response : coap_pdu_t) (query : Option (List Nat))
    (h : (coap_get_data request).1 = false ∨ (coap_get_data request).2.1 = 0) :
    hnd_echo request query response
      = .ok { response with
              code := COAP_RESPONSE_CODE_CONTENT
              data := some (c_bytes "no payload") } ∧
    (c_bytes "no payload").length = 10 := by
  refine ⟨?_, by decide⟩
  apply hnd_echo_empty
  cases hd : request.data with
  | none => exact Or.inl rfl
  | some p =>
    right
    unfold coap_get_data at h
    rw [hd] at h
    rcases h with h | h
    · exact absurd h (by simp)
    · rw [List.length_eq_zero.mp h]

/-- Witness of C4: a request whose payload has length zero. -/
theorem hnd_echo_no_payload_witness :
    hnd_echo ⟨0, 1, 1, [7], [(11, c_bytes "echo")], some []⟩ none ⟨2, 0, 1, [7], [], none⟩
      = .ok ⟨2, COAP_RESPONSE_CODE_CONTENT, 1, [7], [], some (c_bytes "no payload")⟩ :=
  (hnd_echo_no_payload ⟨0, 1, 1, [7], [(11, c_bytes "echo")], some []⟩
    ⟨2, 0, 1, [7], [], none⟩ none (Or.inr rfl)).1

/-- C5: at a payload of 513 bytes `hnd_echo` does not produce a response at
all: the copy of the payload into the 512-byte buffer `out` leaves the
buffer. -/
theorem hnd_echo_oversize_faults :
    hnd_echo ⟨0, 3, 1, [7], [(11, c_bytes "echo")], some (List.replicate 513 65)⟩ none
        ⟨2, 0, 1, [7], [], none⟩
      = .error Fault.out_of_bounds :=
  hnd_echo_oversize _ _ _ (List.replicate 513 65) rfl
    (by rw [List.length_replicate]; decide)

/-- C6: the response of `hnd_root` does not depend on the request: for any
two requests and queries it is the same, with code 2.05 Content and the 15
bytes of the literal `"Rumpelstilzchen"` as payload. -/
theorem root_handler_constant (request1 request2 response : coap_pdu_t)
    (query1 query2 : Option (List Nat)) :
    hnd_root request1 query1 response = hnd_root request2 query2 response ∧
    hnd_root request1 query1 response
      = .ok { response with
              code := COAP_RESPONSE_CODE_CONTENT
              data := some (c_bytes "Rumpelstilzchen") } ∧
    (c_bytes "Rumpelstilzchen").length = 15 :=
  ⟨rfl, rfl, by decide⟩

/-- C10: for a non-empty payload of length `N ≤ 512` the writes of `hnd_echo`
stay inside the 512-byte buffer: `out_len - size` does not wrap, `max_suffix`
is at most the suffix length 8, `N + max_suffix = out_len = min (N + 8) 512`
is at most 512, and both copies and the final read succeed. -/
theorem hnd_echo_within_buffer (request response : coap_pdu_t) (query : Option (List Nat))
    (p : List Nat) (hd : request.data = some p) (h0 : 0 < p.length) (h : p.length ≤ 512) :
    strlen suffix = 8 ∧
    p.length ≤ hnd_echo_out_len p.length (strlen suffix) ∧
    hnd_echo_max_suffix p.length (strlen suffix)
      = hnd_echo_out_len p.length (strlen suffix) - p.length ∧
    hnd_echo_max_suffix p.length (strlen suffix) ≤ strlen suffix ∧
    p.length + hnd_echo_max_suffix p.length (strlen suffix)
      = hnd_echo_out_len p.length (strlen suffix) ∧
    hnd_echo_out_len p.length (strlen suffix) = min (p.length + 8) 512 ∧
    hnd_echo_out_len p.length (strlen suffix) ≤ 512 ∧
    ∃ r, hnd_echo request query response = .ok r := by
  obtain ⟨ho, hm⟩ := hnd_echo_sizes p.length h
  rw [strlen_suffix, ho, hm]
  refine ⟨rfl, ?_, rfl, ?_, ?_, rfl, ?_, ?_⟩
  · omega
  · omega
  · omega
  · omega
  · exact ⟨_, hnd_echo_nonempty request response query p hd h0 h⟩

/-- Witness of C10: the request payload `"123"` of the client. -/
theorem hnd_echo_within_buffer_witness :
    hnd_echo_max_suffix 3 (strlen suffix) ≤ strlen suffix ∧
    3 + hnd_echo_max_suffix 3 (strlen suffix) = hnd_echo_out_len 3 (strlen suffix) ∧
    hnd_echo_out_len 3 (strlen suffix) ≤ 512 ∧
    ∃ r, hnd_echo ⟨0, 3, 1, [7], [(11, c_bytes "echo")], some (c_bytes "123")⟩ none
        ⟨2, 0, 1, [7], [], none⟩ = .ok r := by
  have h := hnd_echo_within_buffer ⟨0, 3, 1, [7], [(11, c_bytes "echo")], some (c_bytes "123")⟩
    ⟨2, 0, 1, [7], [], none⟩ none (c_bytes "123") rfl (by decide) (by decide)
  exact ⟨h.2.2.2.1, h.2.2.2.2.1, h.2.2.2.2.2.2.1, h.2.2.2.2.2.2.2⟩

/-! The resource table -/

/-- C7: in the resource table built by `main`, the path `"echo"` resolves to
`hnd_echo` for exactly the methods GET, PUT and POST, the path `""` with GET
resolves to `hnd_root`, and every other pair of path and method resolves to
no handler; a request to the path `"missing"` is a lookup miss, whatever its
method, and no handler is invoked for it. -/
theorem main_context_resolves (path : String) (m : coap_request_t) :
    resolve main_context path m
      = (if path = "echo" ∧
            (m = .COAP_REQUEST_GET ∨ m = .COAP_REQUEST_PUT ∨ m = .COAP_REQUEST_POST) then
          some Handler.hnd_echo
        else if path = "" ∧ m = .COAP_REQUEST_GET then some Handler.hnd_root
        else none) ∧
    resolve main_context "missing" m = none ∧
    (∀ (request response : coap_pdu_t) (query : Option (List Nat)),
      dispatch main_context "missing" m request query response = Dispatch.not_found) := by
  refine ⟨?_, ?_, ?_⟩
  · by_cases h1 : path = ""
    · subst h1
      cases m <;> decide
    · by_cases h2 : path = "echo"
      · subst h2
        cases m <;> decide
      · have e1 : ("" == path) = false := by
          rw [beq_eq_false_iff_ne]; exact fun h => h1 h.symm
        have e2 : ("echo" == path) = false := by
          rw [beq_eq_false_iff_ne]; exact fun h => h2 h.symm
        simp [resolve, resolve_resource, main_context, coap_add_resource, coap_resource_init,
          coap_register_handler, coap_new_context, List.find?, e1, e2, h1, h2]
  · cases m <;> decide
  · intro request response query
    rfl

/-! The client -/

theorem receive_keeps_state (c : Client) (rx : Option (List Nat)) :
    (receive_coap_response c rx).message_id = c.message_id ∧
    (receive_coap_response c rx).sent = c.sent := by
  unfold receive_coap_response
  cases rx with
  | none => exact ⟨rfl, rfl⟩
  | some d =>
    simp only []
    split <;> exact ⟨rfl, rfl⟩

theorem take_cons4 (n : Nat) (a b x y : Nat) (rest : List Nat) :
    (a :: b :: x :: y :: rest).take (n + 4) = a :: b :: x :: y :: rest.take n := by
  simp [List.take]

theorem drop_cons4 (n : Nat) (a b x y : Nat) (rest : List Nat) :
    (a :: b :: x :: y :: rest).drop (4 + n) = rest.drop n := by
  rw [Nat.add_comm]
  simp [List.drop]

/-- Parsing a datagram of at least four bytes, spelled out: the third and
fourth byte, which hold the message id, are not looked at. -/
theorem parse_cons4 (b0 b1 x y : Nat) (rest : List Nat) :
    coap_packet_parse (b0 :: b1 :: x :: y :: rest) (b0 :: b1 :: x :: y :: rest).length
      = if b0 % 16 > 8 then none
        else if 4 + b0 % 16 > rest.length + 4 then none
        else
          match parse_options (rest.length + 4 + 1) (rest.drop (b0 % 16)) 0 with
          | none => none
          | some (opts, opt_len) =>
            some { data := b0 :: b1 :: x :: y :: rest, offset := 4 + b0 % 16 + opt_len,
                   max_len := rest.length + 4, hdr_len := 4 + b0 % 16, opt_len := opt_len,
                   delta := (opts.map Prod.fst).getLastD 0 } := by
  unfold coap_packet_parse
  have hl : (b0 :: b1 :: x :: y :: rest).length = rest.length + 4 := by simp
  rw [hl, take_cons4, List.take_length]
  have h4 : ¬ (rest.length + 4 < 4 ∨ (b0 :: b1 :: x :: y :: rest).length < rest.length + 4) := by
    rw [hl]; omega
  simp only [h4, if_false, List.headD_cons, drop_cons4]

theorem log_payload_cons4 (b0 b1 x y x2 y2 : Nat) (rest : List Nat) (o m k d e : Nat) :
    log_payload { data := b0 :: b1 :: x :: y :: rest, offset := o, max_len := m,
                  hdr_len := 4 + k, opt_len := d, delta := e }
      = log_payload { data := b0 :: b1 :: x2 :: y2 :: rest, offset := o, max_len := m,
                      hdr_len := 4 + k, opt_len := d, delta := e } := by
  unfold log_payload coap_packet_get_payload
  have e : 4 + k + d + 1 = 4 + (k + d + 1) := by omega
  simp only [e, drop_cons4]

/-- A buffer that parses has at least the four header bytes. -/
theorem parse_some_length (buf : List Nat) (reply : coap_packet)
    (hp : coap_packet_parse buf buf.length = some reply) : 4 ≤ buf.length := by
  by_contra hlt
  unfold coap_packet_parse at hp
  have h : buf.length < 4 ∨ (buf.take buf.length).length < buf.length := Or.inl (by omega)
  simp only [h, if_true] at hp
  exact absurd hp (by simp)

/-- Changing the message id of a datagram that parses gives a datagram that
parses too and for which the same line is logged. -/
theorem parse_other_id (b0 b1 x y j1 j0 : Nat) (rest : List Nat) (reply : coap_packet)
    (hp : coap_packet_parse (b0 :: b1 :: x :: y :: rest) (b0 :: b1 :: x :: y :: rest).length
      = some reply) :
    ∃ reply2, coap_packet_parse (b0 :: b1 :: j1 :: j0 :: rest)
        (b0 :: b1 :: j1 :: j0 :: rest).length = some reply2 ∧
      log_payload reply2 = log_payload reply := by
  rw [parse_cons4] at hp
  rw [parse_cons4]
  by_cases h1 : b0 % 16 > 8
  · simp only [h1, if_true] at hp
    exact absurd hp (by simp)
  · by_cases h2 : 4 + b0 % 16 > rest.length + 4
    · simp only [h1, h2, if_true, if_false] at hp
      exact absurd hp (by simp)
    · simp only [h1, h2, if_false] at hp ⊢
      cases ho : parse_options (rest.length + 4 + 1) (rest.drop (b0 % 16)) 0 with
      | none =>
        rw [ho] at hp
        exact absurd hp (by simp)
      | some r =>
        obtain ⟨opts, n⟩ := r
        rw [ho] at hp
        simp only [Option.some.injEq] at hp
        refine ⟨_, rfl, ?_⟩
        rw [← hp]
        exact log_payload_cons4 b0 b1 j1 j0 x y rest _ _ _ _ _

theorem get_request_eq (t : Nat) (ts : List Nat) (id : Nat) :
    get_request (t :: ts) id
      = { data := [0x41, 1, id / 256 % 256, id % 256, t], offset := 5, max_len := 256,
          hdr_len := 5, opt_len := 0, delta := 0 } := by
  rfl

theorem put_request_eq (t : Nat) (ts : List Nat) (id : Nat) :
    put_request (t :: ts) id (c_str "123")
      = { data := [0x41, 3, id / 256 % 256, id % 256, t, 0xB4, 101, 99, 104, 111, 0xFF,
                   49, 50, 51],
          offset := 14, max_len := 256, hdr_len := 5, opt_len := 5, delta := 11 } := by
  rfl

theorem send_coap_get_state (c : Client) (t : Nat) (ts : List Nat) (rx : Option (List Nat)) :
    (send_coap_get c (t :: ts) rx).message_id = (c.message_id + 1) % 65536 ∧
    (send_coap_get c (t :: ts) rx).sent
      = c.sent ++ [(get_request (t :: ts) (c.message_id % 65536)).data] := by
  unfold send_coap_get
  simp only [coap_next_id]
  rw [(receive_keeps_state _ rx).1, (receive_keeps_state _ rx).2, get_request_eq]
  exact ⟨rfl, rfl⟩

theorem send_coap_put_state (c : Client) (t : Nat) (ts : List Nat) (rx : Option (List Nat)) :
    (send_coap_put c (t :: ts) rx).message_id = (c.message_id + 1) % 65536 ∧
    (send_coap_put c (t :: ts) rx).sent
      = c.sent ++ [(put_request (t :: ts) (c.message_id % 65536) (c_str "123")).data] := by
  unfold send_coap_put
  simp only [coap_next_id]
  rw [(receive_keeps_state _ rx).1, (receive_keeps_state _ rx).2, put_request_eq]
  exact ⟨rfl, rfl⟩

theorem get_request_parse (t : Nat) (ts : List Nat) (id : Nat) (h : id < 65536) :
    (coap_packet_parse (get_request (t :: ts) id).data (get_request (t :: ts) id).offset).map
        coap_packet.message
      = some { version := 1, type := COAP_TYPE_CON, code := COAP_METHOD_GET, message_id := id,
               token := [t], options := [], payload := none } := by
  rw [get_request_eq]
  have e : id / 256 % 256 * 256 + id % 256 = id := by omega
  simp [coap_packet_parse, parse_options, coap_packet.message, coap_header_get_version,
    coap_header_get_type, coap_header_get_code, coap_header_get_id, coap_header_get_token,
    coap_packet_options, coap_packet_get_payload, COAP_TYPE_CON, COAP_METHOD_GET, e]

theorem put_request_parse (t : Nat) (ts : List Nat) (id : Nat) (h : id < 65536) :
    (coap_packet_parse (put_request (t :: ts) id (c_str "123")).data
        (put_request (t :: ts) id (c_str "123")).offset).map coap_packet.message
      = some { version := 1, type := COAP_TYPE_CON, code := COAP_METHOD_PUT, message_id := id,
               token := [t], options := [(COAP_OPTION_URI_PATH, c_bytes "echo")],
               payload := some (c_bytes "123") } := by
  rw [put_request_eq]
  have e : id / 256 % 256 * 256 + id % 256 = id := by omega
  have h3 : c_bytes "echo" = [101, 99, 104, 111] := by decide
  have h4 : c_bytes "123" = [49, 50, 51] := by decide
  simp [coap_packet_parse, parse_options, decode_ext, coap_packet.message,
    coap_header_get_version,
    coap_header_get_type, coap_header_get_code, coap_header_get_id, coap_header_get_token,
    coap_packet_options, coap_packet_get_payload, COAP_TYPE_CON, COAP_METHOD_PUT, e, h3, h4,
    COAP_OPTION_URI_PATH]

/-- C9: every request the client builds has version 1, type Confirmable and a
token of one byte; a press of button 1 sends the GET request, which has no
option and no payload, and a press of button 2 sends the PUT request, which
has the single option Uri-Path `"echo"` and the payload `"123"` after the
payload marker. -/
theorem client_requests (c : Client) (state changed : Nat) (t1 : Nat) (ts1 : List Nat)
    (t2 : Nat) (ts2 : List Nat) (rx1 rx2 : Option (List Nat)) (id : Nat) :
    (button_handler state changed c (t1 :: ts1) rx1 (t2 :: ts2) rx2).sent
      = c.sent
        ++ (if changed &&& DK_BTN1_MSK ≠ 0 ∧ state &&& DK_BTN1_MSK ≠ 0 then
              [(get_request (t1 :: ts1) (c.message_id % 65536)).data]
            else [])
        ++ (if changed &&& DK_BTN2_MSK ≠ 0 ∧ state &&& DK_BTN2_MSK ≠ 0 then
              [(put_request (t2 :: ts2)
                  ((if changed &&& DK_BTN1_MSK ≠ 0 ∧ state &&& DK_BTN1_MSK ≠ 0 then
                      c.message_id + 1
                    else c.message_id) % 65536)
                  (c_str "123")).data]
            else []) ∧
    (get_request (t1 :: ts1) (id % 65536)).data
      = [0x41, COAP_METHOD_GET, id % 65536 / 256, id % 65536 % 256, t1] ∧
    (coap_packet_parse (get_request (t1 :: ts1) (id % 65536)).data
        (get_request (t1 :: ts1) (id % 65536)).offset).map coap_packet.message
      = some { version := 1, type := COAP_TYPE_CON, code := COAP_METHOD_GET,
               message_id := id % 65536, token := [t1], options := [], payload := none } ∧
    (put_request (t2 :: ts2) (id % 65536) (c_str "123")).data
      = [0x41, COAP_METHOD_PUT, id % 65536 / 256, id % 65536 % 256, t2, 0xB4] ++ c_bytes "echo"
        ++ [0xFF] ++ c_bytes "123" ∧
    (coap_packet_parse (put_request (t2 :: ts2) (id % 65536) (c_str "123")).data
        (put_request (t2 :: ts2) (id % 65536) (c_str "123")).offset).map coap_packet.message
      = some { version := 1, type := COAP_TYPE_CON, code := COAP_METHOD_PUT,
               message_id := id % 65536, token := [t2],
               options := [(COAP_OPTION_URI_PATH, c_bytes "echo")],
               payload := some (c_bytes "123") } := by
  have hid : id % 65536 < 65536 := Nat.mod_lt _ (by decide)
  have hhi : id % 65536 / 256 % 256 = id % 65536 / 256 := by omega
  refine ⟨?_, ?_, get_request_parse t1 ts1 _ hid, ?_, put_request_parse t2 ts2 _ hid⟩
  · unfold button_handler
    by_cases a1 : changed &&& DK_BTN1_MSK ≠ 0 <;> by_cases b1 : state &&& DK_BTN1_MSK ≠ 0 <;>
      by_cases a2 : changed &&& DK_BTN2_MSK ≠ 0 <;> by_cases b2 : state &&& DK_BTN2_MSK ≠ 0 <;>
      simp only [a1, b1, a2, b2, if_true, if_false, and_self, and_true, and_false,
        not_true_eq_false, not_false_eq_true, List.append_nil, ne_eq,
        (send_coap_put_state _ t2 ts2 rx2).2, (send_coap_get_state _ t1 ts1 rx1).2,
        (send_coap_get_state _ t1 ts1 rx1).1, Nat.mod_mod]
  · rw [get_request_eq, hhi]
    rfl
  · rw [put_request_eq, hhi]
    rfl

end Coap
